import Mathlib

/-!
Shallow embedding of the QR-token authentication and component-request
fulfillment core of the Shree_Sai_Mechatronics workshop application
(`src/server/storage.ts`, `src/server/routes.ts`, `src/shared/schema.ts` /
the drizzle schema in `src/unnamed/part_004`).

The database is modelled as lists of rows; timestamps are `Nat`
(milliseconds).  A drizzle `select ... where p` returning `[row]` becomes
`List.find?`; an `update ... set ... where p` becomes `List.map` with a
conditional overwrite; an `insert` becomes a list append.  The externally
generated identifiers (`randomUUID()` token strings, `gen_random_uuid()`
row ids) are passed in as explicit parameters; their uniqueness (database
unique constraints) appears as hypotheses where a proof needs it.
Tables not touched by any operation of this core (sessions, products
beyond their id, shelf locations, product events, activity logs, role
permissions) are reduced to what the core reads of them: products are
kept as their id strings because the fulfillment join and log only use
`products.id` / `request.productId`.
-/

namespace SSM

/-- Status enum of `component_requests.status`:
`["pending", "fulfilled", "cancelled"]`. -/
inductive RequestStatus
  | pending
  | fulfilled
  | cancelled
deriving DecidableEq, Repr

/-- Row of the `users` table, reduced to the fields the core reads
(`id` for lookups and joins, `role` for the route guards). -/
structure User where
  id : String
  role : Option String
deriving DecidableEq, Repr

/-- Row of the `qr_tokens` table: token string (unique), owner reference,
expiry timestamp, and nullable `used` timestamp. -/
structure QRToken where
  token : String
  userId : String
  expiresAt : Nat
  used : Option Nat
deriving DecidableEq, Repr

/-- Row of the `components` table, reduced to the fields the fulfillment
flow reads (`id`, unique `qrCode`). -/
structure Component where
  id : String
  qrCode : String
deriving DecidableEq, Repr

/-- Row of the `component_requests` table. -/
structure ComponentRequest where
  id : String
  productId : String
  componentId : String
  requestedQuantity : Int
  status : RequestStatus
  requestedBy : String
  fulfilledBy : Option String
  fulfilledAt : Option Nat
deriving DecidableEq, Repr

/-- Row of the `fulfillment_logs` table (the generated id and the
`googleSheetsLogged` flag are never read by the core and are omitted). -/
structure FulfillmentLog where
  productId : String
  componentId : String
  requestId : String
  quantity : Int
  inventoryPersonId : String
deriving DecidableEq, Repr

/-- The persistent store: one list of rows per table the core touches.
`products` keeps only the product ids, the sole product field this core
dereferences. -/
structure State where
  users : List User
  qrTokens : List QRToken
  products : List String
  components : List Component
  componentRequests : List ComponentRequest
  fulfillmentLogs : List FulfillmentLog
deriving DecidableEq, Repr

/-- Validity condition of the token lookup in `getUserByQRToken`:
`eq(qrTokens.token, token) AND gt(qrTokens.expiresAt, new Date()) AND
isNull(qrTokens.used)`. -/
def tokenValid (tok : String) (now : Nat) (t : QRToken) : Bool :=
  t.token == tok && decide (now < t.expiresAt) && t.used.isNone

/-- `storage.getUserByQRToken(token)`: select the first qr_tokens row
matching the validity condition, inner-joined with its owning users row. -/
def getUserByQRToken (st : State) (tok : String) (now : Nat) : Option User :=
  match st.qrTokens.find? (tokenValid tok now) with
  | some t => st.users.find? (fun u => u.id == t.userId)
  | none => none

/-- The `UPDATE qr_tokens SET used = new Date() WHERE token = token` step of
`validateAndUseQRToken`; the condition is on the token string only. -/
def markTokenUsed (st : State) (tok : String) (now : Nat) : State :=
  { st with qrTokens := st.qrTokens.map (fun t =>
      if t.token == tok then { t with used := some now } else t) }

/-- `storage.validateAndUseQRToken(token)`: read (`getUserByQRToken`), and
only when a user was found, mark the token used.  The read and the update
are two separate database commands in the source (two awaits, no
transaction and no conditional `used IS NULL` clause on the update). -/
def validateAndUseQRToken (st : State) (tok : String) (now : Nat) :
    Option User × State :=
  match getUserByQRToken st tok now with
  | some u => (some u, markTokenUsed st tok now)
  | none => (none, st)

/-- `storage.createQRToken`: inserts a new row whose token string comes from
`randomUUID()`, passed here as the explicit parameter `tokenStr`. -/
def createQRToken (st : State) (userId tokenStr : String) (expiresAt : Nat) :
    State :=
  { st with qrTokens := st.qrTokens ++ [⟨tokenStr, userId, expiresAt, none⟩] }

/-- The fixed token TTL: `expiresAt.setMinutes(expiresAt.getMinutes() + 15)`,
fifteen minutes in milliseconds. -/
def tokenTTL : Nat := 15 * 60 * 1000

/-- `storage.generateQRTokenForUser(userId)`: create a token expiring
`tokenTTL` after now and return its token string. -/
def generateQRTokenForUser (st : State) (userId tokenStr : String) (now : Nat) :
    String × State :=
  (tokenStr, createQRToken st userId tokenStr (now + tokenTTL))

/-- `storage.createComponentRequest`: insert a component_requests row.  The
schema defaults apply: `status` defaults to `"pending"`, `fulfilledBy` and
`fulfilledAt` are not supplied and start null.  The generated row id is the
explicit parameter `newId`. -/
def createComponentRequest (st : State)
    (newId productId componentId : String) (requestedQuantity : Int)
    (requestedBy : String) : ComponentRequest × State :=
  let r : ComponentRequest :=
    ⟨newId, productId, componentId, requestedQuantity, .pending,
     requestedBy, none, none⟩
  (r, { st with componentRequests := st.componentRequests ++ [r] })

/-- `storage.getPendingComponentRequests`: component_requests rows with
`status = "pending"`, inner-joined with their product and component rows
(a row whose product or component reference resolves to no row is dropped
by the inner joins). -/
def getPendingComponentRequests (st : State) : List ComponentRequest :=
  st.componentRequests.filter (fun r =>
    r.status == .pending
    && st.products.any (fun p => p == r.productId)
    && st.components.any (fun c => c.id == r.componentId))

/-- `storage.fulfillComponentRequest(requestId, fulfilledBy)`:
`UPDATE component_requests SET status='fulfilled', fulfilledBy,
fulfilledAt=now WHERE id = requestId`, returning the updated row.  The
`where` clause is on the id alone; there is no condition on the current
status. -/
def fulfillComponentRequest (st : State) (requestId fulfilledBy : String)
    (now : Nat) : Option ComponentRequest × State :=
  let updated := st.componentRequests.map (fun r =>
    if r.id == requestId
    then { r with status := .fulfilled, fulfilledBy := some fulfilledBy,
                  fulfilledAt := some now }
    else r)
  (updated.find? (fun r => r.id == requestId),
   { st with componentRequests := updated })

/-- `storage.createFulfillmentLog`: insert a fulfillment_logs row. -/
def createFulfillmentLog (st : State) (l : FulfillmentLog) : State :=
  { st with fulfillmentLogs := st.fulfillmentLogs ++ [l] }

/-- Outcome of the `/api/inventory/fulfill-request` handler, one constructor
per response the handler body can produce (after the authentication guard):
404 "Component not found", 404 "Request not found",
400 "Scanned component does not match request",
400 "Failed to fulfill request" (the catch branch), and the 200 response
carrying the updated request and the scanned component. -/
inductive FulfillResult
  | componentNotFound
  | requestNotFound
  | componentMismatch
  | fulfillFailed
  | ok (request : Option ComponentRequest) (component : Component)
deriving DecidableEq, Repr

/-- The body of the `/api/inventory/fulfill-request` handler
(`src/server/routes.ts`), after its role guard: resolve the scanned QR to a
component, look the request up in the pending list, reject a component
mismatch, then run the two writes `fulfillComponentRequest` and
`createFulfillmentLog` one after the other.  The writes are separate
awaited commands with no enclosing transaction, so a failure of the log
insert (modelled by `logWriteOk = false`, which lands in the handler's
catch branch) leaves the status update applied. -/
def fulfillRoute (st : State) (requestId componentQR userId : String)
    (now : Nat) (logWriteOk : Bool) : FulfillResult × State :=
  match st.components.find? (fun c => c.qrCode == componentQR) with
  | none => (.componentNotFound, st)
  | some component =>
    match (getPendingComponentRequests st).find? (fun r => r.id == requestId) with
    | none => (.requestNotFound, st)
    | some request =>
      if request.componentId ≠ component.id then (.componentMismatch, st)
      else
        let (fr, st1) := fulfillComponentRequest st requestId userId now
        if logWriteOk then
          (.ok fr component,
           createFulfillmentLog st1
             ⟨request.productId, component.id, requestId,
              request.requestedQuantity, userId⟩)
        else (.fulfillFailed, st1)

/-- A request body for `/api/inventory/request-component`: each picked field
is either present (with the column's type) or absent. -/
structure RequestBody where
  productId : Option String
  componentId : Option String
  requestedQuantity : Option Int
deriving DecidableEq, Repr

/-- The data `insertComponentRequestSchema.parse` yields on success. -/
structure InsertComponentRequest where
  productId : String
  componentId : String
  requestedQuantity : Int
deriving DecidableEq, Repr

/-- `insertComponentRequestSchema` (shared schema):
`createInsertSchema(componentRequests).pick({productId, componentId,
requestedQuantity})`.  The generated zod schema requires each picked
not-null column to be present and well-typed; it carries no further
refinement, in particular no positivity or range constraint on
`requestedQuantity`. -/
def insertComponentRequestSchemaParse (b : RequestBody) :
    Option InsertComponentRequest :=
  match b.productId, b.componentId, b.requestedQuantity with
  | some p, some c, some q => some ⟨p, c, q⟩
  | _, _, _ => none

/-- The body of the `/api/inventory/request-component` handler after its role
guard: parse the body with `insertComponentRequestSchema` (a parse failure
lands in the catch branch, 400 "Failed to create component request") and
insert the request.  The subsequent `createProductEvent` append touches only
the product_events table, which no operation of this core reads, and is
omitted from the state. -/
def requestComponentRoute (st : State) (body : RequestBody)
    (userId newId : String) : Option ComponentRequest × State :=
  match insertComponentRequestSchemaParse body with
  | none => (none, st)
  | some d =>
    let (r, st1) :=
      createComponentRequest st newId d.productId d.componentId
        d.requestedQuantity userId
    (some r, st1)

/-- The state-changing operations of the core, as invoked by the routes:
token redemption (`/api/auth/qr-login`), token issuance
(`/api/auth/generate-qr`), request creation
(`/api/inventory/request-component`), the storage-level fulfillment update,
and the full fulfill-request handler. -/
inductive CoreOp
  | redeemOp (tok : String) (now : Nat)
  | issueOp (userId tokenStr : String) (now : Nat)
  | createRequestOp (newId : String) (body : RequestBody) (userId : String)
  | fulfillStorageOp (requestId fulfilledBy : String) (now : Nat)
  | fulfillRouteOp (requestId componentQR userId : String) (now : Nat)
      (logWriteOk : Bool)

/-- State transition of one core operation. -/
def applyOp (st : State) : CoreOp → State
  | .redeemOp tok now => (validateAndUseQRToken st tok now).2
  | .issueOp userId tokenStr now =>
      (generateQRTokenForUser st userId tokenStr now).2
  | .createRequestOp newId body userId =>
      (requestComponentRoute st body userId newId).2
  | .fulfillStorageOp requestId fulfilledBy now =>
      (fulfillComponentRequest st requestId fulfilledBy now).2
  | .fulfillRouteOp requestId componentQR userId now logWriteOk =>
      (fulfillRoute st requestId componentQR userId now logWriteOk).2

/-- Two overlapping executions of `validateAndUseQRToken` on the same token,
interleaved as read1, read2, write1, write2.  The source implementation
performs the validity read (`getUserByQRToken`) and the mark-used update as
two separately awaited database commands with no transaction and no
`used IS NULL` condition on the update, so this schedule is one the server
admits for two concurrent redeem calls. -/
def redeemInterleaved (st : State) (tok : String) (now : Nat) :
    (Option User × Option User) × State :=
  let u1 := getUserByQRToken st tok now
  let u2 := getUserByQRToken st tok now
  let st1 := if u1.isSome then markTokenUsed st tok now else st
  let st2 := if u2.isSome then markTokenUsed st1 tok now else st1
  ((u1, u2), st2)

/-- A token has been consumed: every qr_tokens row carrying this token
string has a non-null `used` timestamp. -/
def tokenConsumed (st : State) (tok : String) : Prop :=
  ∀ x ∈ st.qrTokens, x.token = tok → x.used ≠ none

/-- Whether an operation inserts a fresh qr_tokens row with the given token
string.  In the source the inserted string is `randomUUID()` and the token
column carries a unique constraint, so an operation minting an
already-present string cannot occur; proofs take `opMints op tok = false`
as the corresponding hypothesis. -/
def opMints (op : CoreOp) (tok : String) : Bool :=
  match op with
  | .issueOp _ tokenStr _ => tokenStr == tok
  | _ => false

/-- A store holding one engineer and one live token `tk` expiring at
time 1000. -/
def tokenState : State :=
  ⟨[⟨"u1", some "engineer"⟩], [⟨"tk", "u1", 1000, none⟩], [], [], [], []⟩

/-- A store holding one user and no tokens. -/
def userOnlyState : State :=
  ⟨[⟨"u1", some "engineer"⟩], [], [], [], [], []⟩

/-- A store with an engineer, an inventory user, one product and one
component, and no requests or logs yet. -/
def fulfillBase : State :=
  ⟨[⟨"eng1", some "engineer"⟩, ⟨"inv1", some "inventory"⟩], [],
   ["p1"], [⟨"c1", "QR1"⟩], [], []⟩

/-- `fulfillBase` after the engineer creates request `r1` for component
`c1` on product `p1`. -/
def c1State1 : State :=
  applyOp fulfillBase
    (.createRequestOp "r1" ⟨some "p1", some "c1", some 2⟩ "eng1")

/-- `c1State1` after a fulfill-request call on `r1` whose fulfillment-log
insert fails. -/
def c1State2 : State :=
  applyOp c1State1 (.fulfillRouteOp "r1" "QR1" "inv1" 100 false)

/-- A store in which request `r1` is already fulfilled and logged. -/
def c2State : State :=
  ⟨[], [], ["p1"], [⟨"c1", "QR1"⟩],
   [⟨"r1", "p1", "c1", 2, .fulfilled, "eng1", some "inv1", some 50⟩],
   [⟨"p1", "c1", "r1", 2, "inv1"⟩]⟩

/-- A store with a pending request for component `c1` and a second,
different component `c2` on the shelf. -/
def mismatchState : State :=
  ⟨[], [], ["p1"], [⟨"c1", "QR1"⟩, ⟨"c2", "QR2"⟩],
   [⟨"r1", "p1", "c1", 2, .pending, "eng1", none, none⟩], []⟩

/-- A store with one engineer, product and component and no requests. -/
def c6State : State :=
  ⟨[⟨"eng1", some "engineer"⟩], [], ["p1"], [⟨"c1", "QR1"⟩], [], []⟩

/-- A store in which request `r1` was cancelled. -/
def c10State : State :=
  ⟨[], [], ["p1"], [⟨"c1", "QR1"⟩],
   [⟨"r1", "p1", "c1", 2, .cancelled, "eng1", none, none⟩], []⟩

/-- The data-model invariant of component requests: `fulfilledBy` and
`fulfilledAt` are non-null exactly on rows whose status is fulfilled. -/
def requestInvariant (st : State) : Prop :=
  ∀ r ∈ st.componentRequests,
    (r.fulfilledBy ≠ none ∧ r.fulfilledAt ≠ none) ↔ r.status = .fulfilled

section Helpers

/-- When a list filters under `p` to exactly `[t]`, a search under any
stronger predicate `q` finds `t` exactly when `t` satisfies `q`. -/
lemma find?_of_filter_singleton {α : Type} (p q : α → Bool) (l : List α)
    (t : α) (hpq : ∀ x, q x = true → p x = true) (h : l.filter p = [t]) :
    l.find? q = if q t then some t else none := by
  induction l with
  | nil => simp at h
  | cons a l ih =>
    by_cases hpa : p a = true
    · rw [List.filter_cons_of_pos hpa] at h
      obtain ⟨rfl, hnil⟩ : a = t ∧ l.filter p = [] := by
        constructor
        · exact (List.cons_eq_cons.mp h).1
        · exact (List.cons_eq_cons.mp h).2
      cases hqa : q a with
      | true => simp [List.find?_cons, hqa]
      | false =>
        have hnone : l.find? q = none := by
          apply List.find?_eq_none.mpr
          intro x hx hqx
          have hpx := hpq x hqx
          have := (List.filter_eq_nil_iff.mp hnil) x hx
          exact this hpx
        simp [List.find?_cons, hqa, hnone]
    · have hqa : q a = false := by
        cases hq : q a with
        | false => rfl
        | true => exact absurd (hpq a hq) hpa
      rw [List.filter_cons_of_neg (by simp [hpa])] at h
      rw [List.find?_cons, hqa]
      exact ih h

/-- Validity of a token row implies it carries the searched token string. -/
lemma tokenValid_implies_token (tok : String) (now : Nat) :
    ∀ x, tokenValid tok now x = true → (x.token == tok) = true := by
  intro x hx
  unfold tokenValid at hx
  simp only [Bool.and_eq_true] at hx
  exact hx.1.1

/-- On a consumed token every row fails the validity condition. -/
lemma tokenValid_false_of_consumed (st : State) (tok : String) (now : Nat)
    (h : tokenConsumed st tok) :
    ∀ x ∈ st.qrTokens, ¬ tokenValid tok now x = true := by
  intro x hx hvalid
  have htok : x.token = tok := by
    have := tokenValid_implies_token tok now x hvalid
    exact eq_of_beq this
  have hnone : x.used.isNone = true := by
    unfold tokenValid at hvalid
    simp only [Bool.and_eq_true] at hvalid
    exact hvalid.2
  exact h x hx htok (Option.isNone_iff_eq_none.mp hnone)

/-- Once a token is consumed, `validateAndUseQRToken` fails and leaves the
state unchanged. -/
lemma validateAndUse_of_consumed (st : State) (tok : String) (now : Nat)
    (h : tokenConsumed st tok) :
    validateAndUseQRToken st tok now = (none, st) := by
  have hfind : st.qrTokens.find? (tokenValid tok now) = none :=
    List.find?_eq_none.mpr (tokenValid_false_of_consumed st tok now h)
  unfold validateAndUseQRToken getUserByQRToken
  rw [hfind]

/-- The mark-used update never clears a `used` timestamp. -/
lemma tokenConsumed_markTokenUsed (st : State) (tok tok' : String) (now : Nat)
    (h : tokenConsumed st tok) : tokenConsumed (markTokenUsed st tok' now) tok := by
  intro x hx htok
  unfold markTokenUsed at hx
  rcases List.mem_map.mp hx with ⟨y, hy, rfl⟩
  by_cases hyt : (y.token == tok') = true
  · rw [if_pos hyt]
    simp
  · rw [if_neg hyt] at htok ⊢
    exact h y hy htok

/-- The request-component route leaves the qr_tokens table untouched. -/
lemma requestRoute_qrTokens (st : State) (b : RequestBody) (uid nid : String) :
    (requestComponentRoute st b uid nid).2.qrTokens = st.qrTokens := by
  unfold requestComponentRoute
  cases h : insertComponentRequestSchemaParse b <;> rfl

/-- The fulfill-request route leaves the qr_tokens table untouched. -/
lemma fulfillRoute_qrTokens (st : State) (rid qr uid : String) (now : Nat)
    (ok : Bool) : (fulfillRoute st rid qr uid now ok).2.qrTokens = st.qrTokens := by
  unfold fulfillRoute
  cases h1 : st.components.find? (fun c => c.qrCode == qr)
  · rfl
  · cases h2 : (getPendingComponentRequests st).find? (fun r => r.id == rid)
    · rfl
    · dsimp only
      split
      · rfl
      · cases ok <;> rfl

/-- No core operation clears a consumed token, provided the operation does
not mint that very token string (the database unique constraint on the
token column). -/
lemma tokenConsumed_applyOp (tok : String) (st : State) (op : CoreOp)
    (h : tokenConsumed st tok) (hmint : opMints op tok = false) :
    tokenConsumed (applyOp st op) tok := by
  cases op with
  | redeemOp tok' now' =>
    show tokenConsumed (validateAndUseQRToken st tok' now').2 tok
    unfold validateAndUseQRToken
    cases hg : getUserByQRToken st tok' now'
    · exact h
    · exact tokenConsumed_markTokenUsed st tok tok' now' h
  | issueOp uid tokenStr now' =>
    intro x hx htok
    unfold opMints at hmint
    rcases List.mem_append.mp hx with hx | hx
    · exact h x hx htok
    · rcases List.mem_singleton.mp hx with rfl
      exact absurd (by simpa using htok) (by simpa using hmint)
  | createRequestOp nid b uid =>
    intro x hx htok
    rw [show (applyOp st (.createRequestOp nid b uid)).qrTokens = st.qrTokens
          from requestRoute_qrTokens st b uid nid] at hx
    exact h x hx htok
  | fulfillStorageOp rid fb now' =>
    intro x hx htok
    exact h x hx htok
  | fulfillRouteOp rid qr uid now' ok =>
    intro x hx htok
    rw [show (applyOp st (.fulfillRouteOp rid qr uid now' ok)).qrTokens = st.qrTokens
          from fulfillRoute_qrTokens st rid qr uid now' ok] at hx
    exact h x hx htok

/-- When the rows carrying the searched token string filter to exactly
`[t]`, the validity lookup of `getUserByQRToken` reduces to testing `t`. -/
lemma getUser_of_filter_singleton (st : State) (tok : String) (now : Nat)
    (t : QRToken) (ht : st.qrTokens.filter (fun x => x.token == tok) = [t]) :
    getUserByQRToken st tok now
      = if tokenValid tok now t
        then st.users.find? (fun u => u.id == t.userId)
        else none := by
  unfold getUserByQRToken
  rw [find?_of_filter_singleton (fun x => x.token == tok) (tokenValid tok now)
        st.qrTokens t (tokenValid_implies_token tok now) ht]
  cases h : tokenValid tok now t <;> simp [h]

/-- Membership in a singleton filter result gives the filter predicate. -/
lemma filter_singleton_mem {α : Type} (p : α → Bool) (l : List α) (t : α)
    (h : l.filter p = [t]) : t ∈ l ∧ p t = true := by
  have : t ∈ l.filter p := by rw [h]; exact List.mem_singleton_self t
  exact ⟨(List.mem_filter.mp this).1, (List.mem_filter.mp this).2⟩

/-- The mark-used update rewrites the unique row carrying the token string
to the same row with `used := some now`. -/
lemma markTokenUsed_filter (l : List QRToken) (tok : String) (now : Nat)
    (t : QRToken) (ht : l.filter (fun x => x.token == tok) = [t]) :
    (l.map (fun x => if x.token == tok then { x with used := some now } else x)).filter
      (fun x => x.token == tok) = [{ t with used := some now }] := by
  rw [List.filter_map]
  have hcong : l.filter
      ((fun x : QRToken => x.token == tok) ∘
        (fun x => if x.token == tok then { x with used := some now } else x))
      = l.filter (fun x => x.token == tok) := by
    apply List.filter_congr
    intro x _
    by_cases hxt : (x.token == tok) = true
    · simp [Function.comp, hxt]
    · simp [Function.comp, hxt]
  rw [hcong, ht, List.map_singleton]
  have hpt : (t.token == tok) = true :=
    (filter_singleton_mem (fun x => x.token == tok) l t ht).2
  rw [if_pos hpt]

/-- When no row with the given id is pending, the route's lookup in the
pending-requests list fails. -/
lemma pendingFind_none (st : State) (requestId : String)
    (h : ∀ x ∈ st.componentRequests, x.id = requestId → x.status ≠ .pending) :
    (getPendingComponentRequests st).find? (fun r => r.id == requestId) = none := by
  apply List.find?_eq_none.mpr
  intro x hx hbeq
  have hmem := List.mem_filter.mp hx
  have hpend : x.status = .pending := by
    have hcond := hmem.2
    simp only [Bool.and_eq_true] at hcond
    exact eq_of_beq hcond.1.1
  exact h x hmem.1 (eq_of_beq hbeq) hpend

/-- The unconditional status-overwriting update preserves the
fulfilled-fields invariant. -/
lemma requestInvariant_fulfillUpdate (l : List ComponentRequest)
    (rid fb : String) (now : Nat)
    (h : ∀ r ∈ l,
      (r.fulfilledBy ≠ none ∧ r.fulfilledAt ≠ none) ↔ r.status = .fulfilled) :
    ∀ r ∈ l.map (fun x =>
        if x.id == rid
        then { x with status := .fulfilled, fulfilledBy := some fb,
                      fulfilledAt := some now }
        else x),
      (r.fulfilledBy ≠ none ∧ r.fulfilledAt ≠ none) ↔ r.status = .fulfilled := by
  intro r hr
  rcases List.mem_map.mp hr with ⟨x, hx, rfl⟩
  by_cases hid : (x.id == rid) = true
  · rw [if_pos hid]
    simp
  · rw [if_neg hid]
    exact h x hx

/-- The storage-level fulfillment update preserves the fulfilled-fields
invariant. -/
lemma requestInvariant_fulfillComponentRequest (st : State) (rid fb : String)
    (now : Nat) (h : requestInvariant st) :
    requestInvariant (fulfillComponentRequest st rid fb now).2 := by
  intro r hr
  exact requestInvariant_fulfillUpdate st.componentRequests rid fb now h r hr

/-- Appending a fulfillment log preserves the fulfilled-fields invariant. -/
lemma requestInvariant_createFulfillmentLog (st : State) (l : FulfillmentLog)
    (h : requestInvariant st) : requestInvariant (createFulfillmentLog st l) := by
  intro r hr
  exact h r hr

end Helpers

/-- C1: refuted on the code.  Starting from a store with a pending request
`r1` for component `c1` (itself created through the request route), a
fulfill-request call whose fulfillment-log insert fails still reports an
error to the caller, yet leaves `r1` with status fulfilled while zero
FulfillmentLog rows with requestId `r1` exist: the two writes are separate
awaited commands with no transaction, so the status update is not rolled
back, contradicting "if either write fails, neither is observably
applied". -/
theorem C1_fulfilled_request_without_log :
    (fulfillRoute c1State1 "r1" "QR1" "inv1" 100 false).1 = .fulfillFailed
    ∧ (∃ r ∈ c1State2.componentRequests, r.id = "r1" ∧ r.status = .fulfilled)
    ∧ c1State2.fulfillmentLogs.filter (fun l => l.requestId == "r1") = [] := by
  decide

/-- C2 counterexample: on a store whose request `r1` is already fulfilled,
a fulfill call with the correct scanned component does fail without any
write, but the failure is the handler's 404 "Request not found" response —
the very same result as for a request id that does not exist at all — and
not a Conflict error, refuting the claim as stated. -/
theorem C2_already_fulfilled_returns_not_found :
    fulfillRoute c2State "r1" "QR1" "inv2" 200 true = (.requestNotFound, c2State)
    ∧ (fulfillRoute c2State "r999" "QR1" "inv2" 200 true).1 = .requestNotFound := by
  decide

/-- C2 amended: for every request whose status is fulfilled or cancelled
(no row with its id being pending), a fulfill call on it — even with the
correct scanned component — fails with the NotFound error used for missing
requests, changes nothing, and creates no second FulfillmentLog row. -/
theorem C2_nonpending_fulfill_rejected (st : State)
    (requestId componentQR userId : String) (now : Nat) (logWriteOk : Bool)
    (c : Component) (r : ComponentRequest)
    (hc : st.components.find? (fun x => x.qrCode == componentQR) = some c)
    (_hr : r ∈ st.componentRequests) (_hid : r.id = requestId)
    (_hstatus : r.status = .fulfilled ∨ r.status = .cancelled)
    (huniq : ∀ x ∈ st.componentRequests, x.id = requestId → x.status ≠ .pending) :
    fulfillRoute st requestId componentQR userId now logWriteOk
      = (.requestNotFound, st) := by
  have hfind := pendingFind_none st requestId huniq
  unfold fulfillRoute
  rw [hc, hfind]

/-- C2 witness: the amended theorem applied to the concrete store whose
request `r1` is already fulfilled. -/
theorem C2_nonpending_fulfill_rejected_witness :
    (c2State.components.find? (fun x => x.qrCode == "QR1") = some ⟨"c1", "QR1"⟩)
    ∧ (∀ x ∈ c2State.componentRequests, x.id = "r1" → x.status ≠ .pending)
    ∧ fulfillRoute c2State "r1" "QR1" "inv2" 200 true
        = (.requestNotFound, c2State) :=
  ⟨by decide, by decide,
   C2_nonpending_fulfill_rejected c2State "r1" "QR1" "inv2" 200 true
     ⟨"c1", "QR1"⟩
     ⟨"r1", "p1", "c1", 2, .fulfilled, "eng1", some "inv1", some 50⟩
     (by decide) (by decide) rfl (Or.inl rfl) (by decide)⟩

/-- C3: refuted on the code.  Two concurrent redemptions of the same live
token, interleaved so that both validity reads run before either mark-used
write (a schedule the two separately awaited database commands admit),
both return the owning user — the claim says two simultaneous redemptions
never both succeed. -/
theorem C3_interleaved_redeems_both_succeed :
    (redeemInterleaved tokenState "tk" 5).1
      = (some ⟨"u1", some "engineer"⟩, some ⟨"u1", some "engineer"⟩) := by
  decide

/-- C5: for every pending request found by the route and every resolved
scanned component whose id differs from the request's componentId, the
fulfill-request handler answers with the mismatch error ("Scanned
component does not match request") and leaves the store untouched. -/
theorem C5_component_mismatch_rejected (st : State)
    (requestId componentQR userId : String) (now : Nat) (logWriteOk : Bool)
    (c : Component) (r : ComponentRequest)
    (hc : st.components.find? (fun x => x.qrCode == componentQR) = some c)
    (hr : (getPendingComponentRequests st).find? (fun x => x.id == requestId)
            = some r)
    (hm : r.componentId ≠ c.id) :
    fulfillRoute st requestId componentQR userId now logWriteOk
      = (.componentMismatch, st) := by
  unfold fulfillRoute
  rw [hc, hr]
  dsimp only
  rw [if_pos hm]

/-- C5 witness: the mismatch theorem applied to the concrete store with a
pending request for `c1` and a scan of the different component `c2`. -/
theorem C5_component_mismatch_rejected_witness :
    (mismatchState.components.find? (fun x => x.qrCode == "QR2")
        = some ⟨"c2", "QR2"⟩)
    ∧ ((getPendingComponentRequests mismatchState).find? (fun x => x.id == "r1")
        = some ⟨"r1", "p1", "c1", 2, .pending, "eng1", none, none⟩)
    ∧ fulfillRoute mismatchState "r1" "QR2" "inv1" 100 true
        = (.componentMismatch, mismatchState) :=
  ⟨by decide, by decide,
   C5_component_mismatch_rejected mismatchState "r1" "QR2" "inv1" 100 true
     ⟨"c2", "QR2"⟩ ⟨"r1", "p1", "c1", 2, .pending, "eng1", none, none⟩
     (by decide) (by decide) (by decide)⟩

/-- C6 counterexample: `create` with requestedQuantity 0 and with -1 both
pass the insert schema and produce a pending request — they do not fail
with a ValidationError, refuting the claim as stated. -/
theorem C6_zero_and_negative_quantity_accepted :
    (requestComponentRoute c6State ⟨some "p1", some "c1", some 0⟩ "eng1" "r1").1
      = some ⟨"r1", "p1", "c1", 0, .pending, "eng1", none, none⟩
    ∧ (requestComponentRoute c6State ⟨some "p1", some "c1", some (-1)⟩ "eng1" "r1").1
      = some ⟨"r1", "p1", "c1", -1, .pending, "eng1", none, none⟩ := by
  decide

/-- C6 amended: the insert schema checks only that productId, componentId
and requestedQuantity are present and well-typed, so `create` succeeds for
every integer requestedQuantity — 0 and -1 included, and requestedQuantity
1 in particular — returning a request whose status is pending. -/
theorem C6_any_quantity_creates_pending (st : State) (p c uid newId : String)
    (q : Int) :
    (requestComponentRoute st ⟨some p, some c, some q⟩ uid newId).1
      = some ⟨newId, p, c, q, .pending, uid, none, none⟩ := rfl

/-- C7: a redeem call on a token all of whose rows carry an expiry in the
past fails and writes nothing, regardless of the `used` field. -/
theorem C7_expired_token_redeem_fails (st : State) (tok : String) (now : Nat)
    (h : ∀ x ∈ st.qrTokens, x.token = tok → x.expiresAt < now) :
    validateAndUseQRToken st tok now = (none, st) := by
  have hfind : st.qrTokens.find? (tokenValid tok now) = none := by
    apply List.find?_eq_none.mpr
    intro x hx hvalid
    have htok : x.token = tok :=
      eq_of_beq (tokenValid_implies_token tok now x hvalid)
    have hexp : now < x.expiresAt := by
      unfold tokenValid at hvalid
      simp only [Bool.and_eq_true] at hvalid
      exact of_decide_eq_true hvalid.1.2
    exact absurd (h x hx htok) (Nat.lt_asymm hexp)
  unfold validateAndUseQRToken getUserByQRToken
  rw [hfind]

/-- C7 witness: the expiry theorem applied to the store whose token `tk`
expired at time 1000, redeemed at time 2000. -/
theorem C7_expired_token_redeem_fails_witness :
    (∀ x ∈ tokenState.qrTokens, x.token = "tk" → x.expiresAt < 2000)
    ∧ validateAndUseQRToken tokenState "tk" 2000 = (none, tokenState) :=
  ⟨by decide, C7_expired_token_redeem_fails tokenState "tk" 2000 (by decide)⟩

/-- C4: on a store holding exactly one row for the token (whose owner
exists), the redeem call succeeds exactly when `used` is null and the call
time is before `expiresAt`; a successful redeem leaves the row with
`used = some now`; no core operation (none can re-mint the unique token
string) ever clears a consumed token's `used` field; and once consumed,
every subsequent redeem of the token returns the invalid-or-expired
failure. -/
theorem C4_token_redeemability_and_single_use (st : State) (tok : String)
    (now : Nat) (t : QRToken) (u : User)
    (ht : st.qrTokens.filter (fun x => x.token == tok) = [t])
    (hu : st.users.find? (fun x => x.id == t.userId) = some u) :
    ((validateAndUseQRToken st tok now).1.isSome = true
        ↔ (t.used = none ∧ now < t.expiresAt))
    ∧ ((validateAndUseQRToken st tok now).1.isSome = true →
        (validateAndUseQRToken st tok now).2.qrTokens.filter
            (fun x => x.token == tok) = [{ t with used := some now }])
    ∧ (∀ st' op, tokenConsumed st' tok → opMints op tok = false →
        tokenConsumed (applyOp st' op) tok)
    ∧ (∀ st' now', tokenConsumed st' tok →
        (validateAndUseQRToken st' tok now').1 = none) := by
  have htok : (t.token == tok) = true :=
    (filter_singleton_mem (fun x => x.token == tok) st.qrTokens t ht).2
  have hguc := getUser_of_filter_singleton st tok now t ht
  refine ⟨⟨?_, ?_⟩, ?_, ?_, ?_⟩
  · intro hsome
    by_cases hv : tokenValid tok now t = true
    · unfold tokenValid at hv
      simp only [Bool.and_eq_true] at hv
      exact ⟨Option.isNone_iff_eq_none.mp hv.2, of_decide_eq_true hv.1.2⟩
    · exfalso
      unfold validateAndUseQRToken at hsome
      rw [hguc, if_neg hv] at hsome
      simp at hsome
  · rintro ⟨hused, hexp⟩
    have hv : tokenValid tok now t = true := by
      unfold tokenValid
      simp [htok, hused, hexp]
    unfold validateAndUseQRToken
    rw [hguc, if_pos hv, hu]
    rfl
  · intro hsome
    have hv : tokenValid tok now t = true := by
      by_contra hv
      unfold validateAndUseQRToken at hsome
      rw [hguc, if_neg hv] at hsome
      simp at hsome
    unfold validateAndUseQRToken
    rw [hguc, if_pos hv, hu]
    exact markTokenUsed_filter st.qrTokens tok now t ht
  · exact fun st' op h hm => tokenConsumed_applyOp tok st' op h hm
  · intro st' now' h
    rw [validateAndUse_of_consumed st' tok now' h]

/-- C4 witness: the theorem applied to the store with the single live token
`tk` (owner `u1`, expiry 1000) at call time 5. -/
theorem C4_token_redeemability_and_single_use_witness :
    (tokenState.qrTokens.filter (fun x => x.token == "tk")
        = [⟨"tk", "u1", 1000, none⟩])
    ∧ (tokenState.users.find? (fun x => x.id == "u1")
        = some ⟨"u1", some "engineer"⟩)
    ∧ (((validateAndUseQRToken tokenState "tk" 5).1.isSome = true
          ↔ ((none : Option Nat) = none ∧ 5 < 1000))
       ∧ ((validateAndUseQRToken tokenState "tk" 5).1.isSome = true →
            (validateAndUseQRToken tokenState "tk" 5).2.qrTokens.filter
              (fun x => x.token == "tk") = [⟨"tk", "u1", 1000, some 5⟩])
       ∧ (∀ st' op, tokenConsumed st' "tk" → opMints op "tk" = false →
            tokenConsumed (applyOp st' op) "tk")
       ∧ (∀ st' now', tokenConsumed st' "tk" →
            (validateAndUseQRToken st' "tk" now').1 = none)) :=
  ⟨by decide, by decide,
   C4_token_redeemability_and_single_use tokenState "tk" 5
     ⟨"tk", "u1", 1000, none⟩ ⟨"u1", some "engineer"⟩ (by decide) (by decide)⟩

/-- C8: issuing a token for an existing user and redeeming the returned
token string before its fifteen-minute expiry, with no intervening
operation, yields a user whose id equals the issued-for user id.  The
freshness hypothesis is the token column's unique constraint on the
`randomUUID()` string. -/
theorem C8_issue_then_redeem_round_trip (st : State) (uid tokenStr : String)
    (now redeemTime : Nat) (u : User)
    (hu : st.users.find? (fun x => x.id == uid) = some u)
    (hfresh : ∀ x ∈ st.qrTokens, x.token ≠ tokenStr)
    (hlt : redeemTime < now + tokenTTL) :
    (validateAndUseQRToken (generateQRTokenForUser st uid tokenStr now).2
        (generateQRTokenForUser st uid tokenStr now).1 redeemTime).1 = some u
    ∧ u.id = uid := by
  have hbeq := List.find?_some hu
  have huid : u.id = uid := eq_of_beq (by simpa using hbeq)
  refine ⟨?_, huid⟩
  have hfind :
      ((generateQRTokenForUser st uid tokenStr now).2.qrTokens).find?
          (tokenValid tokenStr redeemTime)
        = some ⟨tokenStr, uid, now + tokenTTL, none⟩ := by
    show (st.qrTokens ++ [(⟨tokenStr, uid, now + tokenTTL, none⟩ : QRToken)]).find?
        (tokenValid tokenStr redeemTime) = _
    rw [List.find?_append]
    have h1 : st.qrTokens.find? (tokenValid tokenStr redeemTime) = none := by
      apply List.find?_eq_none.mpr
      intro x hx hvalid
      exact hfresh x hx
        (eq_of_beq (tokenValid_implies_token tokenStr redeemTime x hvalid))
    rw [h1]
    simp [tokenValid, hlt]
  have hget : getUserByQRToken (generateQRTokenForUser st uid tokenStr now).2
      tokenStr redeemTime = some u := by
    unfold getUserByQRToken
    rw [hfind]
    exact hu
  show (validateAndUseQRToken (generateQRTokenForUser st uid tokenStr now).2
      tokenStr redeemTime).1 = some u
  unfold validateAndUseQRToken
  rw [hget]

/-- C8 witness: the round trip on the store holding only user `u1`, token
string `tok1` minted at time 0 and redeemed at time 10. -/
theorem C8_issue_then_redeem_round_trip_witness :
    (userOnlyState.users.find? (fun x => x.id == "u1")
        = some ⟨"u1", some "engineer"⟩)
    ∧ (∀ x ∈ userOnlyState.qrTokens, x.token ≠ "tok1")
    ∧ (10 < 0 + tokenTTL)
    ∧ ((validateAndUseQRToken (generateQRTokenForUser userOnlyState "u1" "tok1" 0).2
          (generateQRTokenForUser userOnlyState "u1" "tok1" 0).1 10).1
            = some ⟨"u1", some "engineer"⟩
       ∧ (⟨"u1", some "engineer"⟩ : User).id = "u1") :=
  ⟨by decide, by decide, by decide,
   C8_issue_then_redeem_round_trip userOnlyState "u1" "tok1" 0 10
     ⟨"u1", some "engineer"⟩ (by decide) (by decide) (by decide)⟩

/-- C9: request creation returns a row with status pending and null
fulfilledBy / fulfilledAt, and every core operation preserves the
invariant that fulfilledBy and fulfilledAt are non-null exactly on rows
whose status is fulfilled. -/
theorem C9_fulfillment_fields_invariant (st : State) (op : CoreOp)
    (h : requestInvariant st) :
    requestInvariant (applyOp st op)
    ∧ ∀ newId p c q uid,
        (createComponentRequest st newId p c q uid).1.status = .pending
        ∧ (createComponentRequest st newId p c q uid).1.fulfilledBy = none
        ∧ (createComponentRequest st newId p c q uid).1.fulfilledAt = none := by
  constructor
  · cases op with
    | redeemOp tok now =>
      intro r hr
      have hreq : (applyOp st (.redeemOp tok now)).componentRequests
          = st.componentRequests := by
        show (validateAndUseQRToken st tok now).2.componentRequests = _
        unfold validateAndUseQRToken
        cases hg : getUserByQRToken st tok now <;> rfl
      rw [hreq] at hr
      exact h r hr
    | issueOp uid tks now =>
      intro r hr
      exact h r hr
    | createRequestOp nid b uid =>
      intro r hr
      cases hp : insertComponentRequestSchemaParse b with
      | none =>
        have hreq : (applyOp st (.createRequestOp nid b uid)).componentRequests
            = st.componentRequests := by
          show (requestComponentRoute st b uid nid).2.componentRequests = _
          unfold requestComponentRoute
          rw [hp]
        rw [hreq] at hr
        exact h r hr
      | some d =>
        have hreq : (applyOp st (.createRequestOp nid b uid)).componentRequests
            = st.componentRequests
              ++ [⟨nid, d.productId, d.componentId, d.requestedQuantity,
                   .pending, uid, none, none⟩] := by
          show (requestComponentRoute st b uid nid).2.componentRequests = _
          unfold requestComponentRoute
          rw [hp]
          rfl
        rw [hreq] at hr
        rcases List.mem_append.mp hr with hr | hr
        · exact h r hr
        · rcases List.mem_singleton.mp hr with rfl
          simp
    | fulfillStorageOp rid fb now =>
      exact requestInvariant_fulfillComponentRequest st rid fb now h
    | fulfillRouteOp rid qr uid now ok =>
      show requestInvariant (fulfillRoute st rid qr uid now ok).2
      unfold fulfillRoute
      cases hc : st.components.find? (fun c => c.qrCode == qr) with
      | none => exact h
      | some component =>
        cases hreq : (getPendingComponentRequests st).find?
            (fun r => r.id == rid) with
        | none => exact h
        | some request =>
          dsimp only
          split
          · exact h
          · cases ok with
            | false =>
              exact requestInvariant_fulfillComponentRequest st rid uid now h
            | true =>
              exact requestInvariant_createFulfillmentLog _ _
                (requestInvariant_fulfillComponentRequest st rid uid now h)
  · intro newId p c q uid
    exact ⟨rfl, rfl, rfl⟩

/-- C9 witness: the invariant theorem applied to the store with no
requests yet and a storage-level fulfillment update. -/
theorem C9_fulfillment_fields_invariant_witness :
    requestInvariant fulfillBase
    ∧ (requestInvariant (applyOp fulfillBase (.fulfillStorageOp "r1" "inv1" 100))
       ∧ ∀ newId p c q uid,
           (createComponentRequest fulfillBase newId p c q uid).1.status = .pending
           ∧ (createComponentRequest fulfillBase newId p c q uid).1.fulfilledBy = none
           ∧ (createComponentRequest fulfillBase newId p c q uid).1.fulfilledAt = none) :=
  ⟨by intro r hr; simp [fulfillBase] at hr,
   C9_fulfillment_fields_invariant fulfillBase
     (.fulfillStorageOp "r1" "inv1" 100)
     (by intro r hr; simp [fulfillBase] at hr)⟩

/-- C10: the storage-level fulfillment update is keyed on the request id
alone — for every existing row with that id, whatever its status (pending,
fulfilled or cancelled), the updated table holds that row overwritten to
status fulfilled with the given fulfilledBy and fulfilledAt = now — while
the route layer's only guard is its lookup in the pending-requests list,
which rejects the call with the not-found response whenever no pending row
carries the id. -/
theorem C10_storage_fulfill_unconditional (st : State) (requestId fb : String)
    (now : Nat) (r : ComponentRequest)
    (hr : r ∈ st.componentRequests) (hid : r.id = requestId) :
    ({ r with status := .fulfilled, fulfilledBy := some fb,
              fulfilledAt := some now } : ComponentRequest)
      ∈ (fulfillComponentRequest st requestId fb now).2.componentRequests
    ∧ ∀ componentQR userId logOk c,
        st.components.find? (fun x => x.qrCode == componentQR) = some c →
        (∀ x ∈ st.componentRequests, x.id = requestId → x.status ≠ .pending) →
        fulfillRoute st requestId componentQR userId now logOk
          = (.requestNotFound, st) := by
  constructor
  · refine List.mem_map.mpr ⟨r, hr, ?_⟩
    rw [if_pos (show (r.id == requestId) = true by simp [hid])]
  · intro componentQR userId logOk c hc hnp
    have hfind := pendingFind_none st requestId hnp
    unfold fulfillRoute
    rw [hc, hfind]

/-- C10 witness: the theorem applied to the store whose request `r1` was
cancelled — the storage update still overwrites it to fulfilled. -/
theorem C10_storage_fulfill_unconditional_witness :
    ((⟨"r1", "p1", "c1", 2, .cancelled, "eng1", none, none⟩ : ComponentRequest)
        ∈ c10State.componentRequests)
    ∧ ((⟨"r1", "p1", "c1", 2, .fulfilled, "eng1", some "inv1", some 300⟩ :
          ComponentRequest)
        ∈ (fulfillComponentRequest c10State "r1" "inv1" 300).2.componentRequests
       ∧ ∀ componentQR userId logOk c,
           c10State.components.find? (fun x => x.qrCode == componentQR) = some c →
           (∀ x ∈ c10State.componentRequests, x.id = "r1" → x.status ≠ .pending) →
           fulfillRoute c10State "r1" componentQR userId 300 logOk
             = (.requestNotFound, c10State)) :=
  ⟨by decide,
   C10_storage_fulfill_unconditional c10State "r1" "inv1" 300
     ⟨"r1", "p1", "c1", 2, .cancelled, "eng1", none, none⟩ (by decide) rfl⟩

end SSM
